import Mathlib

/-!
Shallow embedding of `src/main.py` (a personal address book: `Field`, `Name`,
`Phone`, `Record`, `AddressBook`).

Modelling conventions:
* Python strings are modelled by Lean `String`; where character-level
  reasoning is needed the normalization pipeline works on `List Char`
  (`String` in Lean is a wrapper around `List Char`, so the translation is
  definitional).  `re.sub(r'\D', '', s)` is modelled as filtering the
  characters by `Char.isDigit`, and `s.startswith("38")` as
  `l.take 2 = ['3', '8']`.
* Python exceptions (`ValueError` in the source; the spec names the two
  conditions `InvalidPhoneNumber` and `PhoneNotFound`) are modelled by
  `Except Err`.  A failing operation returns `.error e` and produces no new
  state, so the caller keeps the pre-call state: failure cannot mutate.
* The `Field` base class of the source only stores `value`; `Name` and
  `Phone` are embedded as separate one-field structures each holding that
  `value`, and `Record` / `AddressBook` as structures over them.
* A Python `dict` (insertion-ordered) is modelled as an association list
  `List (String × α)`: assignment to an existing key replaces the value in
  place (keeping the key's position), assignment to a fresh key appends.
-/

/-- The two error conditions of the source (`ValueError` messages
"Phone number ... is invalid" and "Phone number ... not found").  Each
carries the offending value, as the messages do. -/
inductive Err where
  | invalidPhoneNumber (value : String)
  | phoneNotFound (old : String)
deriving DecidableEq, Repr

/-- `re.sub(r'\D', '', phone)` from `Phone.__init__` (line 57): remove every
non-digit character, preserving order. -/
def stripNonDigits (l : List Char) : List Char :=
  l.filter Char.isDigit

/-- Lines 57–59 of `Phone.__init__`: strip non-digits, then drop a leading
`"38"` unconditionally. -/
def normalizePhone (l : List Char) : List Char :=
  let d := stripNonDigits l
  if d.take 2 = ['3', '8'] then d.drop 2 else d

/-- `Name` stores the supplied string unchanged (no validation in the
source). -/
structure Name where
  value : String
deriving DecidableEq, Repr

/-- `Phone` stores a normalized, validated digit string. -/
structure Phone where
  value : String
deriving DecidableEq, Repr

/-- `Phone.__init__` (lines 56–62): normalize, then require length exactly
10, else raise `ValueError` carrying the post-strip value. -/
def Phone.init (raw : String) : Except Err Phone :=
  let p := normalizePhone raw.toList
  if p.length = 10 then .ok ⟨String.mk p⟩
  else .error (.invalidPhoneNumber (String.mk p))

/-- `Record`: one name plus an ordered phone list (lines 67–69). -/
structure Record where
  name : Name
  phones : List Phone
deriving DecidableEq, Repr

/-- `Record.__init__` (lines 67–69): wraps the name, empty phone list. -/
def Record.init (name : String) : Record :=
  ⟨⟨name⟩, []⟩

/-- `Record.add_phone` (lines 71–73): construct a `Phone` (which may fail)
and append it. -/
def Record.add_phone (r : Record) (phone : String) : Except Err Record :=
  match Phone.init phone with
  | .ok p => .ok { r with phones := r.phones ++ [p] }
  | .error e => .error e

/-- `Record.remove_phone` (lines 75–77): keep only the phones whose value
differs from the argument. -/
def Record.remove_phone (r : Record) (phone : String) : Record :=
  { r with phones := r.phones.filter (fun p => p.value != phone) }

/-- The `for` loop of `Record.edit_phone` (lines 82–86).  On the first
match the source rebinds the loop variable (`p = Phone(new_phone)`) and
returns without writing into the list, so the successful result is the
UNCHANGED record `r`; constructing the new phone can itself fail. -/
def editLoop (r : Record) (old new : String) : List Phone → Except Err Record
  | [] => .error (.phoneNotFound old)
  | p :: ps =>
    if p.value = old then
      match Phone.init new with
      | .ok _ => .ok r
      | .error e => .error e
    else editLoop r old new ps

/-- `Record.edit_phone` (lines 79–86). -/
def Record.edit_phone (r : Record) (old new : String) : Except Err Record :=
  editLoop r old new r.phones

/-- `Record.find_phone` (lines 88–90): first phone with the given value,
else `None`. -/
def Record.find_phone (r : Record) (phone : String) : Option Phone :=
  r.phones.find? (fun p => p.value == phone)

/-- `Record.__str__` (lines 92–93). -/
def Record.render (r : Record) : String :=
  "Contact name: " ++ r.name.value ++ ", phones: " ++
    String.intercalate "; " (r.phones.map Phone.value)

/-- The insertion-ordered association list modelling `self.data : dict`. -/
abbrev AddressBook := List (String × Record)

/-- `self.data[k] = v` on a Python dict: replace in place when the key is
present, append otherwise. -/
def dictInsert (d : AddressBook) (k : String) (v : Record) : AddressBook :=
  if d.any (fun kv => kv.1 == k) then
    d.map (fun kv => if kv.1 == k then (k, v) else kv)
  else d ++ [(k, v)]

/-- `AddressBook.add_record` (lines 99–101): store under the record's name
string; always succeeds. -/
def AddressBook.add_record (d : AddressBook) (r : Record) : AddressBook :=
  dictInsert d r.name.value r

/-- `AddressBook.find` (lines 103–105): `self.data.get(name, None)`. -/
def AddressBook.find (d : AddressBook) (name : String) : Option Record :=
  (d.find? (fun kv => kv.1 == name)).map (fun kv => kv.2)

/-- `AddressBook.delete` (lines 107–109): `self.data.pop(name, None)` —
remove the entry if present, no-op otherwise, never fails. -/
def AddressBook.delete (d : AddressBook) (name : String) : AddressBook :=
  d.filter (fun kv => kv.1 != name)

/-- `AddressBook.__str__` (lines 111–113): join record renderings with
newlines in enumeration order. -/
def AddressBook.render (d : AddressBook) : String :=
  String.intercalate "\n" (d.map (fun kv => kv.2.render))

/-- The record named `John` built by the demonstration script
(lines 119–121): phones `"+38123456-7890"` (normalized `"1234567890"`) and
`"5555555555"`. -/
def johnDemo : Record :=
  ⟨⟨"John"⟩, [⟨"1234567890"⟩, ⟨"5555555555"⟩]⟩

/-- The state of a record after `add_phone`: on success the appended
record, on failure (the exception propagates to the caller) the record
object keeps its previous state. -/
def runAddPhone (r : Record) (raw : String) : Record :=
  match r.add_phone raw with
  | .ok r' => r'
  | .error _ => r

/-- The spec's invariant on a live phone value: exactly 10 ASCII digits. -/
def validPhone (p : Phone) : Prop :=
  p.value.length = 10 ∧ ∀ c ∈ p.value.toList, c.isDigit

/-- Every phone stored in the record satisfies the invariant. -/
def recordValid (r : Record) : Prop :=
  ∀ p ∈ r.phones, validPhone p

/-- Every record stored in the book satisfies the invariant. -/
def bookValid (d : AddressBook) : Prop :=
  ∀ kv ∈ d, recordValid kv.2

/-- A reference into the Python object heap.  `AddressBook.find` in the
source returns the stored `Record` OBJECT itself (a shared reference),
not a copy; to state this aliasing contract the book is also embedded at
the reference level: a heap assigns a `Record` to every reference and the
dict maps names to references. -/
abbrev Ref := Nat

/-- The reference-level view of the `AddressBook` object graph
(lines 95–113 of the source). -/
structure BookState where
  heap : Ref → Record
  entries : List (String × Ref)

/-- `AddressBook.find` (lines 103–105) at the reference level: the caller
receives the reference stored in the dict. -/
def BookState.find (s : BookState) (name : String) : Option Ref :=
  (s.entries.find? (fun kv => kv.1 == name)).map (fun kv => kv.2)

/-- Mutation of the record object behind `ref`: the heap cell is updated,
the dict entries are untouched. -/
def writeRec (s : BookState) (ref : Ref) (r : Record) : BookState :=
  { s with heap := fun i => if i = ref then r else s.heap i }

/-- `record.add_phone raw` invoked through a reference obtained from
`find` (as the demonstration script does on line 136): read the object,
run the record operation, store the result at the same reference; a
failure propagates and writes nothing. -/
def refAddPhone (s : BookState) (ref : Ref) (raw : String) :
    Except Err BookState :=
  match (s.heap ref).add_phone raw with
  | .ok r' => .ok (writeRec s ref r')
  | .error e => .error e

/-- The records of the book in enumeration order: what `__str__`
(lines 111–113) maps `Record.render` over. -/
def BookState.records (s : BookState) : List Record :=
  s.entries.map (fun kv => s.heap kv.2)

/-- The book of the aliasing witness: one record `John` stored at
reference 0. -/
def bookDemoState : BookState :=
  ⟨fun _ => Record.init "John", [("John", 0)]⟩

theorem phone_init_eq (raw : String) :
    Phone.init raw =
      if (normalizePhone raw.toList).length = 10
      then .ok ⟨String.mk (normalizePhone raw.toList)⟩
      else .error (.invalidPhoneNumber (String.mk (normalizePhone raw.toList))) :=
  rfl

theorem editLoop_not_found (r : Record) (old new : String) :
    ∀ l : List Phone, (∀ p ∈ l, p.value ≠ old) →
      editLoop r old new l = .error (.phoneNotFound old) := by
  intro l
  induction l with
  | nil => intro _; rfl
  | cons p ps ih =>
    intro h
    unfold editLoop
    rw [if_neg (h p (List.mem_cons_self p ps))]
    exact ih fun q hq => h q (List.mem_cons_of_mem p hq)

/-- C1: `Phone` construction removes all non-digits preserving order,
unconditionally drops a leading `"38"`, succeeds storing the result iff
its length is exactly 10, and fails with `InvalidPhoneNumber` carrying the
post-strip value otherwise; `"3812345678"` fails (stripped to 8 digits)
while `"+38123456-7890"` succeeds as `"1234567890"`. -/
theorem phone_validation_pipeline :
    (∀ l : List Char,
        List.Sublist (stripNonDigits l) l ∧
        (∀ c ∈ stripNonDigits l, c.isDigit) ∧
        (∀ c ∈ l, c.isDigit → c ∈ stripNonDigits l)) ∧
    (∀ raw : String,
        (∃ p : Phone, Phone.init raw = .ok p) ↔
          (normalizePhone raw.toList).length = 10) ∧
    (∀ raw : String, ∀ p : Phone, Phone.init raw = .ok p →
        p.value = String.mk (normalizePhone raw.toList)) ∧
    (∀ raw : String, (normalizePhone raw.toList).length ≠ 10 →
        Phone.init raw =
          .error (.invalidPhoneNumber (String.mk (normalizePhone raw.toList)))) ∧
    Phone.init "3812345678" = .error (.invalidPhoneNumber "12345678") ∧
    Phone.init "+38123456-7890" = .ok ⟨"1234567890"⟩ := by
  refine ⟨?_, ?_, ?_, ?_, rfl, rfl⟩
  · intro l
    refine ⟨List.filter_sublist l, ?_, ?_⟩
    · intro c hc
      exact (List.mem_filter.mp hc).2
    · intro c hc hd
      exact List.mem_filter.mpr ⟨hc, hd⟩
  · intro raw
    simp only [phone_init_eq]
    by_cases h : (normalizePhone raw.data).length = 10 <;> simp [h]
  · intro raw p hp
    rw [phone_init_eq] at hp
    by_cases h : (normalizePhone raw.toList).length = 10
    · rw [if_pos h] at hp
      cases hp
      rfl
    · rw [if_neg h] at hp
      cases hp
  · intro raw h
    rw [phone_init_eq, if_neg h]

theorem phone_validation_pipeline_witness :
    Phone.init "abc123" = .error (.invalidPhoneNumber "123") ∧
    (Phone.mk "5555555555").value = String.mk (normalizePhone "5555555555".toList) :=
  ⟨phone_validation_pipeline.2.2.2.1 "abc123" (by decide),
   phone_validation_pipeline.2.2.1 "5555555555" ⟨"5555555555"⟩ rfl⟩

/-- C2 (code bug): evaluating the demonstration scenario of the source
(lines 119–138).  Building John and calling
`edit_phone "1234567890" "1112223333"` SUCCEEDS but returns the record
unchanged — the loop variable is rebound and never written back — so
`find_phone "1112223333"` yields `none`, the original phone survives, and
the rendering contradicts the source's own comment on line 138
(`Contact name: John, phones: 1112223333; 5555555555`). -/
theorem edit_phone_silent_noop :
    (Record.init "John").add_phone "+38123456-7890"
      = .ok ⟨⟨"John"⟩, [⟨"1234567890"⟩]⟩ ∧
    Record.add_phone ⟨⟨"John"⟩, [⟨"1234567890"⟩]⟩ "5555555555" = .ok johnDemo ∧
    johnDemo.edit_phone "1234567890" "1112223333" = .ok johnDemo ∧
    johnDemo.find_phone "1112223333" = none ∧
    johnDemo.find_phone "1234567890" = some ⟨"1234567890"⟩ ∧
    johnDemo.render = "Contact name: John, phones: 1234567890; 5555555555" :=
  ⟨rfl, rfl, rfl, rfl, rfl, rfl⟩

/-- C3: when no stored phone equals `old`, `edit_phone` fails with
`PhoneNotFound old` for EVERY `new` (so `new` is never constructed or
validated and the failure is never `InvalidPhoneNumber`); the error return
carries no record, so the caller's record is unchanged. -/
theorem edit_phone_not_found (r : Record) (old new : String)
    (h : ∀ p ∈ r.phones, p.value ≠ old) :
    r.edit_phone old new = .error (.phoneNotFound old) :=
  editLoop_not_found r old new r.phones h

theorem edit_phone_not_found_witness :
    Record.edit_phone ⟨⟨"Ann"⟩, [⟨"5555555555"⟩]⟩ "1234567890" "not-a-phone"
      = .error (.phoneNotFound "1234567890") :=
  edit_phone_not_found ⟨⟨"Ann"⟩, [⟨"5555555555"⟩]⟩ "1234567890" "not-a-phone"
    (by decide)

/-- C7: when the normalization of `raw` does not have exactly 10 digits,
`add_phone` fails with `InvalidPhoneNumber` and the record's state after
the call (`runAddPhone`) equals its state before: no partial mutation. -/
theorem add_phone_invalid_atomic (r : Record) (raw : String)
    (h : (normalizePhone raw.toList).length ≠ 10) :
    r.add_phone raw =
      .error (.invalidPhoneNumber (String.mk (normalizePhone raw.toList))) ∧
    runAddPhone r raw = r := by
  have hp : Phone.init raw =
      .error (.invalidPhoneNumber (String.mk (normalizePhone raw.toList))) := by
    rw [phone_init_eq, if_neg h]
  constructor
  · unfold Record.add_phone
    rw [hp]
  · unfold runAddPhone Record.add_phone
    rw [hp]

theorem add_phone_invalid_atomic_witness :
    Record.add_phone ⟨⟨"Bob"⟩, [⟨"5555555555"⟩]⟩ "3812345678"
        = .error (.invalidPhoneNumber "12345678") ∧
    runAddPhone ⟨⟨"Bob"⟩, [⟨"5555555555"⟩]⟩ "3812345678"
        = ⟨⟨"Bob"⟩, [⟨"5555555555"⟩]⟩ :=
  add_phone_invalid_atomic ⟨⟨"Bob"⟩, [⟨"5555555555"⟩]⟩ "3812345678" (by decide)

/-- C10 counterexample: the claim "every Name created at Record
construction wraps a non-empty string" is false: `Record("")` succeeds and
its name value is the empty string (the source validates nothing). -/
theorem name_nonempty_cex : ¬ ((Record.init "").name.value ≠ "") :=
  fun h => h rfl

/-- C10 (amended): `Record` construction stores the supplied name string
unchanged as the identity key, with no non-emptiness (or any other)
validation. -/
theorem record_name_unvalidated : ∀ s : String, (Record.init s).name.value = s :=
  fun _ => rfl

/-- C4: `remove_phone v` keeps the name, removes exactly the phones whose
stored value equals `v` (the survivors are a sublist of the original list,
so relative order is preserved), never fails (it is a total function), and
is the identity when no phone matches. -/
theorem remove_phone_spec (r : Record) (v : String) :
    (r.remove_phone v).name = r.name ∧
    List.Sublist (r.remove_phone v).phones r.phones ∧
    (∀ p : Phone, p ∈ (r.remove_phone v).phones ↔ p ∈ r.phones ∧ p.value ≠ v) ∧
    ((∀ p ∈ r.phones, p.value ≠ v) → r.remove_phone v = r) := by
  refine ⟨rfl, List.filter_sublist r.phones, ?_, ?_⟩
  · intro p
    unfold Record.remove_phone
    simp [List.mem_filter]
  · intro h
    unfold Record.remove_phone
    rw [List.filter_eq_self.mpr fun p hp => by simpa using h p hp]

theorem remove_phone_spec_witness :
    Record.remove_phone ⟨⟨"Ann"⟩, [⟨"5555555555"⟩]⟩ "1234567890"
      = ⟨⟨"Ann"⟩, [⟨"5555555555"⟩]⟩ :=
  (remove_phone_spec ⟨⟨"Ann"⟩, [⟨"5555555555"⟩]⟩ "1234567890").2.2.2 (by decide)

/-- C6: `delete name` makes a subsequent `find name` return `none`, the
deleted key appears in no remaining entry (hence not in the rendering,
which maps over the remaining entries), the operation is total (never
fails), and it is the identity when the key is absent. -/
theorem delete_spec (d : AddressBook) (name : String) :
    AddressBook.find (d.delete name) name = none ∧
    (∀ kv ∈ d.delete name, kv.1 ≠ name) ∧
    (AddressBook.find d name = none → d.delete name = d) := by
  refine ⟨?_, ?_, ?_⟩
  · unfold AddressBook.delete AddressBook.find
    simp [List.find?_eq_none, List.mem_filter]
  · intro kv hkv
    have h := (List.mem_filter.mp hkv).2
    simpa using h
  · intro h
    unfold AddressBook.find at h
    unfold AddressBook.delete
    have h2 : d.find? (fun kv => kv.1 == name) = none := by
      cases hfind : d.find? (fun kv => kv.1 == name) with
      | none => rfl
      | some kv => rw [hfind] at h; cases h
    rw [List.filter_eq_self.mpr]
    intro kv hkv
    have := List.find?_eq_none.mp h2 kv hkv
    simpa using this

theorem find?_overwrite_self (k : String) (v : Record) (d : AddressBook) :
    ((d.map (fun kv => if kv.1 == k then (k, v) else kv)).find?
        (fun kv => kv.1 == k))
      = if d.any (fun kv => kv.1 == k) then some (k, v) else none := by
  induction d with
  | nil => rfl
  | cons a tl ih =>
    by_cases h : a.1 == k
    · simp only [List.map_cons, if_pos h, List.any_cons, h, Bool.true_or, if_pos,
        List.find?_cons, beq_self_eq_true]
    · have h' : (a.1 == k) = false := Bool.not_eq_true _ ▸ h
      rw [List.map_cons, if_neg h, List.find?_cons, List.any_cons, h', Bool.false_or]
      exact ih

theorem find?_overwrite_other (k k' : String) (v : Record) (hne : k' ≠ k)
    (d : AddressBook) :
    ((d.map (fun kv => if kv.1 == k then (k, v) else kv)).find?
        (fun kv => kv.1 == k'))
      = d.find? (fun kv => kv.1 == k') := by
  have hkk' : ¬((k : String) == k') = true := by
    simp
    exact fun hk => hne hk.symm
  induction d with
  | nil => rfl
  | cons a tl ih =>
    by_cases h : a.1 == k
    · have ha : a.1 = k := by simpa using h
      have h2 : (k == k') = false := Bool.not_eq_true _ ▸ hkk'
      have h1 : (a.1 == k') = false := by rw [ha, h2]
      simp only [List.map_cons, if_pos h, List.find?_cons]
      rw [h1, h2]
      exact ih
    · simp only [List.map_cons, if_neg h, List.find?_cons]
      by_cases h' : a.1 == k'
      · rw [h']
      · have h'' : (a.1 == k') = false := Bool.not_eq_true _ ▸ h'
        rw [h'']
        exact ih

/-- C5: `add_record` is total (always succeeds), stores the record under
its name string (a subsequent `find` with that name returns exactly the
new record, phones unmerged), leaves every other key's lookup unchanged,
and makes the old record unreachable: every entry of the new book either
holds the new record or is an entry of the old book under a different
key. -/
theorem add_record_spec (d : AddressBook) (r : Record) :
    AddressBook.find (d.add_record r) r.name.value = some r ∧
    (∀ n : String, n ≠ r.name.value →
        AddressBook.find (d.add_record r) n = AddressBook.find d n) ∧
    (∀ kv ∈ d.add_record r, kv.2 = r ∨ (kv ∈ d ∧ kv.1 ≠ r.name.value)) := by
  refine ⟨?_, ?_, ?_⟩
  · unfold AddressBook.add_record dictInsert AddressBook.find
    by_cases h : d.any (fun kv => kv.1 == r.name.value)
    · rw [if_pos h, find?_overwrite_self, if_pos h]
      rfl
    · rw [if_neg h, List.find?_append]
      have hfalse : d.any (fun kv => kv.1 == r.name.value) = false :=
        Bool.not_eq_true _ ▸ h
      have hnone : d.find? (fun kv => kv.1 == r.name.value) = none := by
        rw [List.find?_eq_none]
        exact fun kv hkv => List.any_eq_false.mp hfalse kv hkv
      rw [hnone]
      simp
  · intro n hn
    unfold AddressBook.add_record dictInsert AddressBook.find
    by_cases h : d.any (fun kv => kv.1 == r.name.value)
    · rw [if_pos h, find?_overwrite_other r.name.value n r hn]
    · rw [if_neg h, List.find?_append]
      have hsingle : ([(r.name.value, r)].find? (fun kv => kv.1 == n)) = none := by
        rw [List.find?_eq_none]
        intro kv hkv
        rw [List.mem_singleton.mp hkv]
        simp
        exact fun hk => hn hk.symm
      rw [hsingle]
      simp
  · intro kv hkv
    unfold AddressBook.add_record dictInsert at hkv
    by_cases h : d.any (fun kv => kv.1 == r.name.value)
    · rw [if_pos h] at hkv
      obtain ⟨a, ha, hfa⟩ := List.mem_map.mp hkv
      by_cases h2 : a.1 == r.name.value
      · left
        rw [if_pos h2] at hfa
        rw [← hfa]
      · right
        rw [if_neg h2] at hfa
        subst hfa
        exact ⟨ha, by simpa using h2⟩
    · rw [if_neg h] at hkv
      rcases List.mem_append.mp hkv with h1 | h2
      · right
        have hfalse : d.any (fun kv => kv.1 == r.name.value) = false :=
          Bool.not_eq_true _ ▸ h
        exact ⟨h1, by simpa using List.any_eq_false.mp hfalse kv h1⟩
      · left
        rw [List.mem_singleton.mp h2]

theorem add_record_spec_witness :
    AddressBook.find
        (AddressBook.add_record [("John", johnDemo)] ⟨⟨"Jane"⟩, [⟨"9876543210"⟩]⟩)
        "John"
      = AddressBook.find [("John", johnDemo)] "John" :=
  (add_record_spec [("John", johnDemo)] ⟨⟨"Jane"⟩, [⟨"9876543210"⟩]⟩).2.1
    "John" (by decide)

theorem normalizePhone_digits (l : List Char) :
    ∀ c ∈ normalizePhone l, c.isDigit := by
  intro c hc
  unfold normalizePhone at hc
  by_cases h : (stripNonDigits l).take 2 = ['3', '8']
  · rw [if_pos h] at hc
    exact (List.mem_filter.mp (List.mem_of_mem_drop hc)).2
  · rw [if_neg h] at hc
    exact (List.mem_filter.mp hc).2

theorem phoneInit_valid (raw : String) (p : Phone)
    (hp : Phone.init raw = .ok p) : validPhone p := by
  rw [phone_init_eq] at hp
  by_cases h : (normalizePhone raw.toList).length = 10
  · rw [if_pos h] at hp
    cases hp
    exact ⟨h, fun c hc => normalizePhone_digits raw.toList c hc⟩
  · rw [if_neg h] at hp
    cases hp

theorem add_phone_ok (r : Record) (raw : String) (r' : Record)
    (h : r.add_phone raw = .ok r') :
    ∃ p, Phone.init raw = .ok p ∧ r' = { r with phones := r.phones ++ [p] } := by
  unfold Record.add_phone at h
  cases hp : Phone.init raw with
  | ok p =>
    rw [hp] at h
    cases h
    exact ⟨p, rfl, rfl⟩
  | error e =>
    rw [hp] at h
    cases h

theorem editLoop_ok_eq (r : Record) (old new : String) :
    ∀ l : List Phone, ∀ r', editLoop r old new l = .ok r' → r' = r := by
  intro l
  induction l with
  | nil => intro r' h; cases h
  | cons p ps ih =>
    intro r' h
    unfold editLoop at h
    by_cases hp : p.value = old
    · rw [if_pos hp] at h
      cases hps : Phone.init new with
      | ok q => rw [hps] at h; cases h; rfl
      | error e => rw [hps] at h; cases h
    · rw [if_neg hp] at h
      exact ih r' h

/-- C8: every successfully constructed `Phone` is exactly 10 ASCII digits,
and the invariant is preserved by every operation (`add_phone`,
`remove_phone`, `edit_phone`, `add_record`, `delete`); duplicates are
permitted (adding the same raw phone twice succeeds and stores it
twice). -/
theorem phone_digit_invariant :
    (∀ (raw : String) (p : Phone), Phone.init raw = .ok p → validPhone p) ∧
    (∀ (r : Record) (raw : String) (r' : Record),
        recordValid r → r.add_phone raw = .ok r' → recordValid r') ∧
    (∀ (r : Record) (v : String), recordValid r → recordValid (r.remove_phone v)) ∧
    (∀ (r : Record) (old new : String) (r' : Record),
        recordValid r → r.edit_phone old new = .ok r' → recordValid r') ∧
    (∀ (d : AddressBook) (r : Record),
        bookValid d → recordValid r → bookValid (d.add_record r)) ∧
    (∀ (d : AddressBook) (n : String), bookValid d → bookValid (d.delete n)) ∧
    (((Record.init "Dup").add_phone "5555555555").bind
        (fun r1 => r1.add_phone "5555555555")
      = .ok ⟨⟨"Dup"⟩, [⟨"5555555555"⟩, ⟨"5555555555"⟩]⟩) := by
  refine ⟨phoneInit_valid, ?_, ?_, ?_, ?_, ?_, rfl⟩
  · intro r raw r' hr h
    obtain ⟨p, hp, rfl⟩ := add_phone_ok r raw r' h
    intro q hq
    rcases List.mem_append.mp hq with h1 | h2
    · exact hr q h1
    · rw [List.mem_singleton.mp h2]
      exact phoneInit_valid raw p hp
  · intro r v hr q hq
    exact hr q (List.mem_filter.mp hq).1
  · intro r old new r' hr h
    rw [editLoop_ok_eq r old new r.phones r' h]
    exact hr
  · intro d r hd hr kv hkv
    unfold AddressBook.add_record dictInsert at hkv
    by_cases h : d.any (fun kv => kv.1 == r.name.value)
    · rw [if_pos h] at hkv
      obtain ⟨a, ha, hfa⟩ := List.mem_map.mp hkv
      by_cases h2 : a.1 == r.name.value
      · rw [if_pos h2] at hfa
        rw [← hfa]
        exact hr
      · rw [if_neg h2] at hfa
        rw [← hfa]
        exact hd a ha
    · rw [if_neg h] at hkv
      rcases List.mem_append.mp hkv with h1 | h2
      · exact hd kv h1
      · rw [List.mem_singleton.mp h2]
        exact hr
  · intro d n hd kv hkv
    exact hd kv (List.mem_filter.mp hkv).1

theorem phone_digit_invariant_witness :
    validPhone ⟨"5555555555"⟩ :=
  phone_digit_invariant.1 "5555555555" ⟨"5555555555"⟩ rfl

theorem delete_spec_witness :
    AddressBook.delete [("John", johnDemo)] "Jane" = [("John", johnDemo)] :=
  (delete_spec [("John", johnDemo)] "Jane").2.2 (by decide)

/-- C9: `find` hands out a live reference into the book's storage: when
`find name = some ref` and an `add_phone` through `ref` succeeds, the
dict entries are unchanged, `find name` still returns the same reference,
the record behind it is the mutated one, and the mutated record (hence
its rendering) appears in what the book renders.  For a name under no
entry, `find` returns `none` — a not-found result, not an error. -/
theorem find_returns_live_reference :
    (∀ (s : BookState) (name : String) (ref : Ref) (raw : String)
        (s' : BookState),
        s.find name = some ref → refAddPhone s ref raw = .ok s' →
        s'.entries = s.entries ∧
        s'.find name = some ref ∧
        ∃ r', (s.heap ref).add_phone raw = .ok r' ∧
          s'.heap ref = r' ∧ r' ∈ s'.records ∧
          r'.render ∈ s'.records.map Record.render) ∧
    (∀ (s : BookState) (name : String),
        (∀ kv ∈ s.entries, kv.1 ≠ name) → s.find name = none) := by
  constructor
  · intro s name ref raw s' hfind hadd
    unfold refAddPhone at hadd
    cases hres : (s.heap ref).add_phone raw with
    | error e =>
      rw [hres] at hadd
      cases hadd
    | ok r' =>
      rw [hres] at hadd
      cases hadd
      have hheap : (writeRec s ref r').heap ref = r' := by
        simp [writeRec]
      have hmem : r' ∈ (writeRec s ref r').records := by
        unfold BookState.find at hfind
        obtain ⟨kv, hfk, hkr⟩ := Option.map_eq_some'.mp hfind
        refine List.mem_map.mpr ⟨kv, List.mem_of_find?_eq_some hfk, ?_⟩
        rw [hkr]
        exact hheap
      exact ⟨rfl, hfind, r', rfl, hheap, hmem,
        List.mem_map_of_mem Record.render hmem⟩
  · intro s name h
    have hnone : s.entries.find? (fun kv => kv.1 == name) = none :=
      List.find?_eq_none.mpr fun kv hkv => by simpa using h kv hkv
    unfold BookState.find
    rw [hnone]
    rfl

theorem find_returns_live_reference_witness :
    (writeRec bookDemoState 0 ⟨⟨"John"⟩, [⟨"5555555555"⟩]⟩).entries
        = bookDemoState.entries ∧
    (writeRec bookDemoState 0 ⟨⟨"John"⟩, [⟨"5555555555"⟩]⟩).find "John"
        = some 0 ∧
    ∃ r', (bookDemoState.heap 0).add_phone "5555555555" = .ok r' ∧
      (writeRec bookDemoState 0 ⟨⟨"John"⟩, [⟨"5555555555"⟩]⟩).heap 0 = r' ∧
      r' ∈ (writeRec bookDemoState 0 ⟨⟨"John"⟩, [⟨"5555555555"⟩]⟩).records ∧
      r'.render ∈ (writeRec bookDemoState 0
          ⟨⟨"John"⟩, [⟨"5555555555"⟩]⟩).records.map Record.render :=
  find_returns_live_reference.1 bookDemoState "John" 0 "5555555555"
    (writeRec bookDemoState 0 ⟨⟨"John"⟩, [⟨"5555555555"⟩]⟩) rfl rfl
